import Mathlib

/-!
Verification of the Khuli-kitab RAG backend.

Shallow embedding of the Python sources:
  * `backend/rag/chat_manager.py`  — `ChatManager` (Mongo chat collection modelled as a
    `List Msg` in insertion order; timestamps as `Int` seconds).
  * `backend/rag/document_processor.py` — `DocumentProcessor.split_documents` metadata
    loop (id and MD5 hash assignment), `load_directory`, `__init__`.
  * `backend/app.py` — the `/query`, `/ingest/google-drive` and `/ingest/google-drive/file`
    endpoints, with external collaborators (Drive download, chunk processing + vector
    store indexing, the RAG chain) passed in as explicit function parameters.
  * `backend/rag/drive_client.py` — `list_files_in_folder` (the Drive query's MIME /
    trashed filter applied to the folder's contents).
-/

namespace KhuliKitab

/-! ## Chat manager (`backend/rag/chat_manager.py`)

The Mongo collection `chats` is modelled as a list of messages in insertion order.
Timestamps are `Int` seconds (``datetime.utcnow()`` at the moment of the call). -/

structure Msg where
  session_id : String
  role : String
  content : String
  timestamp : Int
deriving DecidableEq

/-- `ChatManager.save_message`: inserts one document into the `chats` collection,
stamped with the current time. -/
def save_message (chats : List Msg) (session_id role content : String) (now : Int) :
    List Msg :=
  chats ++ [{ session_id := session_id, role := role, content := content, timestamp := now }]

/-- Stable insertion into a timestamp-sorted list (model of Mongo's
`sort("timestamp", 1)`, which preserves insertion order between equal keys here). -/
def insertByTs (m : Msg) : List Msg → List Msg
  | [] => [m]
  | x :: xs => if m.timestamp < x.timestamp then m :: x :: xs else x :: insertByTs m xs

/-- Stable sort by ascending timestamp. -/
def sortByTs (l : List Msg) : List Msg := l.foldr insertByTs []

/-- `ChatManager.get_history`: `find({"session_id": session_id}).sort("timestamp", 1).limit(limit)`,
then each document is projected to `(role, content, timestamp)`. -/
def get_history (chats : List Msg) (session_id : String) (limit : Nat) :
    List (String × String × Int) :=
  (((sortByTs (chats.filter (fun m => m.session_id == session_id))).take limit).map
    (fun m => (m.role, m.content, m.timestamp)))

/-- `ChatManager.clear_history`: `delete_many({"session_id": session_id})`. -/
def clear_history (chats : List Msg) (session_id : String) : List Msg :=
  chats.filter (fun m => !(m.session_id == session_id))

/-- `ChatManager.check_rate_limit`: counts documents with this session id, role `"user"`
and `timestamp ≥ now - window_hours` (Mongo `$gte`; note there is no upper bound in the
query), and returns `count < limit`. -/
def check_rate_limit (chats : List Msg) (session_id : String) (limit : Int)
    (window_hours : Int) (now : Int) : Bool :=
  let cutoff := now - window_hours * 3600
  let count := (chats.filter
    (fun m => m.session_id == session_id && m.role == "user" && decide (cutoff ≤ m.timestamp))).length
  decide ((count : Int) < limit)

/-! ## The `/query` endpoint (`backend/app.py`, `query`) -/

/-- The fixed redirection text passed to `save_message` on the rate-limited branch of
`query` in `backend/app.py`. -/
def redirectMessage : String :=
  "You have exceeded the rate limit. Please provide your email id, linkedin profile or any other contact, or get in touch with me on linkedin : https://www.linkedin.com/in/akshat-jain-571435139/ , mail : akshatbjain.aj@gmail.com , contact: +91 9425919685 so we can take this discussion ahead"

/-- What the Python handler returns to FastAPI.  On the rate-limited branch the code
executes ``return chat_manager.save_message(...)`` **without** awaiting it, so the value
handed back is the un-awaited coroutine object of that call (and the call's insert never
runs); on the normal branches it is a dict validating against `QueryResponse`. -/
inductive QueryReturn where
  | response (answer : String) (sources : Option (List String))
  | unawaitedCoroutine (session_id role content : String)
deriving DecidableEq

structure QueryOutcome where
  chats : List Msg
  ret : QueryReturn
  ragInvoked : Bool
deriving DecidableEq

/-- The `/query` handler.  `rag` stands for `rag_chain.query` and `ragWithSources` for
`rag_chain.query_with_sources` (external collaborators); `ragInvoked` records whether
either was called.  The rate-limit check is the call
`chat_manager.check_rate_limit(request.session_id)`, i.e. with the defaults
`limit=25`, `window_hours=1`. -/
def queryEndpoint (chats : List Msg) (now : Int) (session_id question : String)
    (include_sources : Bool) (rag : String → String)
    (ragWithSources : String → String × List String) : QueryOutcome :=
  let is_allowed := check_rate_limit chats session_id 25 1 now
  if !is_allowed then
    let chats1 := save_message chats session_id "user" question now
    { chats := chats1,
      ret := QueryReturn.unawaitedCoroutine session_id "assistant" redirectMessage,
      ragInvoked := false }
  else
    let chats1 := save_message chats session_id "user" question now
    if include_sources then
      let result := ragWithSources question
      let chats2 := save_message chats1 session_id "assistant" result.1 now
      { chats := chats2, ret := QueryReturn.response result.1 (some result.2),
        ragInvoked := true }
    else
      let answer := rag question
      let chats2 := save_message chats1 session_id "assistant" answer now
      { chats := chats2, ret := QueryReturn.response answer none, ragInvoked := true }

/-! ## MD5 (`hashlib.md5(...).hexdigest()` over the UTF-8 encoding of the chunk text)

A byte-level implementation of MD5 over `List Nat` (each entry a byte), all 32-bit
arithmetic done with `Nat` modulo `2 ^ 32`. -/

/-- UTF-8 encoding of one character (`str.encode("utf-8")`, per code point). -/
def encodeChar (c : Char) : List Nat :=
  let n := c.toNat
  if n < 128 then [n]
  else if n < 2048 then [192 ||| (n >>> 6), 128 ||| (n &&& 63)]
  else if n < 65536 then
    [224 ||| (n >>> 12), 128 ||| ((n >>> 6) &&& 63), 128 ||| (n &&& 63)]
  else
    [240 ||| (n >>> 18), 128 ||| ((n >>> 12) &&& 63),
     128 ||| ((n >>> 6) &&& 63), 128 ||| (n &&& 63)]

/-- UTF-8 encoding of a string as a byte list. -/
def encodeUtf8 (s : String) : List Nat :=
  (s.data.map encodeChar).flatten

/-- The 64 per-round MD5 constants `K[i] = floor(abs(sin(i+1)) * 2^32)`. -/
def md5K : List Nat :=
  [3614090360, 3905402710, 606105819, 3250441966, 4118548399, 1200080426, 2821735955,
   4249261313, 1770035416, 2336552879, 4294925233, 2304563134, 1804603682, 4254626195,
   2792965006, 1236535329, 4129170786, 3225465664, 643717713, 3921069994, 3593408605,
   38016083, 3634488961, 3889429448, 568446438, 3275163606, 4107603335, 1163531501,
   2850285829, 4243563512, 1735328473, 2368359562, 4294588738, 2272392833, 1839030562,
   4259657740, 2763975236, 1272893353, 4139469664, 3200236656, 681279174, 3936430074,
   3572445317, 76029189, 3654602809, 3873151461, 530742520, 3299628645, 4096336452,
   1126891415, 2878612391, 4237533241, 1700485571, 2399980690, 4293915773, 2240044497,
   1873313359, 4264355552, 2734768916, 1309151649, 4149444226, 3174756917, 718787259,
   3951481745]

/-- The MD5 per-round left-rotation amounts. -/
def md5S : List Nat :=
  [7, 12, 17, 22, 7, 12, 17, 22, 7, 12, 17, 22, 7, 12, 17, 22,
   5, 9, 14, 20, 5, 9, 14, 20, 5, 9, 14, 20, 5, 9, 14, 20,
   4, 11, 16, 23, 4, 11, 16, 23, 4, 11, 16, 23, 4, 11, 16, 23,
   6, 10, 15, 21, 6, 10, 15, 21, 6, 10, 15, 21, 6, 10, 15, 21]

/-- Rotate a 32-bit word left by `n` bits. -/
def rotl32 (x n : Nat) : Nat :=
  ((x <<< n) ||| (x >>> (32 - n))) % 4294967296

/-- Bitwise complement on 32-bit words. -/
def not32 (x : Nat) : Nat := x ^^^ 4294967295

/-- MD5 padding: append `0x80`, zero-pad to 56 mod 64, then the original bit length as
eight little-endian bytes. -/
def md5pad (msg : List Nat) : List Nat :=
  let n := msg.length
  let zeros := (120 - ((n + 1) % 64)) % 64
  msg ++ [128] ++ List.replicate zeros 0 ++
    ((List.range 8).map (fun i => ((n * 8) >>> (8 * i)) % 256))

/-- Little-endian 32-bit word `g` of a 64-byte block. -/
def md5word (block : List Nat) (g : Nat) : Nat :=
  block.getD (4 * g) 0 + 256 * block.getD (4 * g + 1) 0 +
    65536 * block.getD (4 * g + 2) 0 + 16777216 * block.getD (4 * g + 3) 0

/-- One MD5 round: state `(A, B, C, D)`, round index `i`. -/
def md5round (block : List Nat) (st : Nat × Nat × Nat × Nat) (i : Nat) :
    Nat × Nat × Nat × Nat :=
  let (a, b, c, d) := st
  let (f, g) :=
    if i < 16 then ((b &&& c) ||| (not32 b &&& d), i)
    else if i < 32 then ((d &&& b) ||| (not32 d &&& c), (5 * i + 1) % 16)
    else if i < 48 then (b ^^^ c ^^^ d, (3 * i + 5) % 16)
    else (c ^^^ (b ||| not32 d), (7 * i) % 16)
  let f := (f + a + md5K.getD i 0 + md5word block g) % 4294967296
  (d, (b + rotl32 f (md5S.getD i 0)) % 4294967296, b, c)

/-- Process one 64-byte block. -/
def md5block (st : Nat × Nat × Nat × Nat) (block : List Nat) :
    Nat × Nat × Nat × Nat :=
  let (a0, b0, c0, d0) := st
  let (a, b, c, d) := (List.range 64).foldl (md5round block) (a0, b0, c0, d0)
  ((a0 + a) % 4294967296, (b0 + b) % 4294967296,
   (c0 + c) % 4294967296, (d0 + d) % 4294967296)

/-- Split a padded message into 64-byte blocks (fuel-based structural recursion so the
definition evaluates inside the kernel). -/
def toBlocksAux : Nat → List Nat → List (List Nat)
  | _, [] => []
  | 0, _ => []
  | fuel + 1, l => l.take 64 :: toBlocksAux fuel (l.drop 64)

def toBlocks (l : List Nat) : List (List Nat) := toBlocksAux l.length l

/-- Four little-endian bytes of a 32-bit word. -/
def leBytes (x : Nat) : List Nat :=
  [x % 256, (x >>> 8) % 256, (x >>> 16) % 256, (x >>> 24) % 256]

/-- The 16-byte MD5 digest of a byte list. -/
def md5bytes (msg : List Nat) : List Nat :=
  let st := (toBlocks (md5pad msg)).foldl md5block
    (1732584193, 4023233417, 2562383102, 271733878)
  leBytes st.1 ++ leBytes st.2.1 ++ leBytes st.2.2.1 ++ leBytes st.2.2.2

/-- Lowercase hexadecimal digit (0–15). -/
def hexDigit (n : Nat) : Char := Nat.digitChar n

/-- `hashlib.md5(text.encode("utf-8")).hexdigest()`. -/
def md5hex (text : String) : String :=
  String.mk (((md5bytes (encodeUtf8 text)).map (fun b => [hexDigit (b / 16), hexDigit (b % 16)])).flatten)

/-! ## Document processor (`backend/rag/document_processor.py`) -/

/-- A chunk's metadata dict, restricted to the keys `split_documents` reads or writes
(`source`, `page`, `page_number`, `id`, `hash`); a `none` field models an absent key. -/
structure Metadata where
  source : Option String
  page : Option Int
  page_number : Option Int
  id : Option String
  hash : Option String
deriving DecidableEq

/-- A langchain `Document`: `page_content` plus metadata. -/
structure Doc where
  page_content : String
  metadata : Metadata
deriving DecidableEq

/-- `os.path.basename` (POSIX): everything after the last `/`. -/
def os_basename (s : String) : String :=
  String.mk (s.data.foldl (fun acc c => if c = '/' then [] else acc ++ [c]) [])

/-- `chunk.metadata.get("source", "unknown")`. -/
def srcOf (m : Metadata) : String := m.source.getD "unknown"

/-- `chunk.metadata.get("page", chunk.metadata.get("page_number", 0))`. -/
def pageOf (m : Metadata) : Int := m.page.getD (m.page_number.getD 0)

/-- The chunk id `f"{source_name}:{page}:{chunk_number}"`. -/
def mkChunkId (source : String) (page : Int) (chunk_number : Nat) : String :=
  os_basename source ++ ":" ++ toString page ++ ":" ++ toString chunk_number

/-- The loop body of `split_documents`: set `chunk.metadata["id"]` to
`f"{source_name}:{page}:{chunk_number}"` and `chunk.metadata["hash"]` to the MD5 of the
chunk content, leaving all other fields untouched. -/
def stampChunk (chunk : Doc) (chunk_number : Nat) : Doc :=
  { chunk with metadata :=
      { chunk.metadata with
        id := some (mkChunkId (srcOf chunk.metadata) (pageOf chunk.metadata) chunk_number),
        hash := some (md5hex chunk.page_content) } }

/-- The metadata loop of `split_documents` (lines 126–152): walks the chunks in order,
threading the `source_counters` dict (modelled as a total function, zero for sources not
yet seen — matching `if source not in source_counters: source_counters[source] = 0`),
and sets `id` and `hash` on each chunk via `stampChunk`. -/
def assignChunks (ctrs : String → Nat) : List Doc → List Doc
  | [] => []
  | chunk :: rest =>
    let source := srcOf chunk.metadata
    let n := ctrs source + 1
    stampChunk chunk n :: assignChunks (fun k => if k = source then n else ctrs k) rest

/-- `DocumentProcessor.split_documents`: `self.text_splitter.split_documents` (the
external langchain splitter, passed in as `splitter`) followed by the metadata loop with
`source_counters = {}` freshly initialized on every call. -/
def split_documents (splitter : List Doc → List Doc) (documents : List Doc) : List Doc :=
  assignChunks (fun _ => 0) (splitter documents)

/-- The extensions of `DocumentProcessor.LOADER_MAPPING`, in dict insertion order. -/
def LOADER_EXTS : List String := [".pdf", ".txt", ".md", ".docx"]

/-- `DocumentProcessor.load_directory`: for each extension group a `DirectoryLoader` run
(the external loader outcome is `loadGroup ext`: either the group's documents or a raised
exception); a failing group is caught, a warning printed, and the loop continues. -/
def load_directory (loadGroup : String → Except String (List Doc)) : List Doc :=
  (LOADER_EXTS.map (fun ext =>
    match loadGroup ext with
    | Except.ok ds => ds
    | Except.error _ => [])).flatten

/-- `DocumentProcessor` as constructed: the stored sizes. -/
structure DocumentProcessor where
  chunk_size : Int
  chunk_overlap : Int
deriving DecidableEq

/-- `DocumentProcessor.__init__(chunk_size, chunk_overlap)` together with the validation
performed by the `RecursiveCharacterTextSplitter` constructor it invokes.  The repository
code itself performs no check; the langchain `TextSplitter.__init__` it calls raises
`ValueError` exactly when `chunk_overlap > chunk_size` (third-party behaviour, modelled
from the langchain library invoked at lines 44–49). -/
def documentProcessorInit (chunk_size chunk_overlap : Int) :
    Except String DocumentProcessor :=
  if chunk_overlap > chunk_size then
    Except.error ("Got a larger chunk overlap (" ++ toString chunk_overlap ++
      ") than chunk size (" ++ toString chunk_size ++ "), should be smaller.")
  else
    Except.ok { chunk_size := chunk_size, chunk_overlap := chunk_overlap }

/-! ## Google Drive ingestion (`backend/app.py` and `backend/rag/drive_client.py`)

The Drive collaborator is explicit data/functions: a folder's contents is a
`List DriveFile`; `download f.id` is the outcome of `drive_client.download_file` (an
`Except.error` is a raised exception); `process name` is the outcome of
`doc_processor.process_file` followed by `vector_store.add_documents`, returning the
indexed ids.  `werkzeug.secure_filename` (external) is modelled as the identity.

The endpoint models return the interesting part of the handler's outcome:
`Except.error detail` for a raised `HTTPException` / propagated exception, or
`Except.ok (all_ids, processed_count)` (the HTTP response renders these as the message
string, `chunks_created = all_ids.length` and a bounded prefix of the ids).  The second
component of the pair is whether the temp directory still exists when the handler
returns (`true` = leaked, never removed). -/

structure DriveFile where
  id : String
  name : String
  mimeType : String
  trashed : Bool
deriving DecidableEq

/-- Python's substring test `pat in s` on lists of characters. -/
def charsContain (pat : List Char) : List Char → Bool
  | [] => pat.isEmpty
  | c :: rest => pat.isPrefixOf (c :: rest) || charsContain pat rest

/-- Python's `pat in s` for strings. -/
def pyInStr (pat s : String) : Bool := charsContain pat.data s.data

/-- The mime test of `app.py` (`'pdf' in mime_type or 'document' in mime_type`); its
negation is the skip/reject condition. -/
def allowedMime (mime : String) : Bool := pyInStr "pdf" mime || pyInStr "document" mime

/-- `GoogleDriveClient.list_files_in_folder`: the Drive query
`'folder' in parents and (mimeType = 'application/pdf' or
mimeType = 'application/vnd.google-apps.document') and trashed = false`, applied to the
folder's contents. -/
def list_files_in_folder (contents : List DriveFile) : List DriveFile :=
  contents.filter (fun f =>
    (f.mimeType == "application/pdf" ||
     f.mimeType == "application/vnd.google-apps.document") && !f.trashed)

/-- The local file name a Drive file is saved under: `secure_filename(file_name)`
(modelled as the identity) plus the `.docx` suffix forced for Google Docs exports. -/
def gdocName (f : DriveFile) : String :=
  if f.mimeType == "application/vnd.google-apps.document" && !(f.name.endsWith ".docx")
  then f.name ++ ".docx" else f.name

/-- The per-file loop of `ingest_drive` (lines 302–329): skip files whose mime contains
neither `'pdf'` nor `'document'`; `download_file` is **outside** the inner `try`, so a
download failure propagates out of the loop; a processing failure is caught and the loop
continues; otherwise the ids are accumulated and `processed_count` incremented. -/
def driveLoop (download : String → Except String Unit)
    (process : String → Except String (List String)) :
    List DriveFile → List String → Nat → Except String (List String × Nat)
  | [], all_ids, processed_count => Except.ok (all_ids, processed_count)
  | f :: rest, all_ids, processed_count =>
    if !(allowedMime f.mimeType) then
      driveLoop download process rest all_ids processed_count
    else
      match download f.id with
      | Except.error e => Except.error e
      | Except.ok _ =>
        match process (gdocName f) with
        | Except.error _ => driveLoop download process rest all_ids processed_count
        | Except.ok ids =>
          driveLoop download process rest (all_ids ++ ids) (processed_count + 1)

/-- The `/ingest/google-drive` handler (`ingest_drive`): list the folder, return early
if nothing is listed (the temp directory is never created), else create the temp
directory, run the per-file loop, and only on normal loop exit `shutil.rmtree` the temp
directory — an exception escaping the loop reaches the outer `except` with the temp
directory still in place. -/
def ingest_drive (contents : List DriveFile) (download : String → Except String Unit)
    (process : String → Except String (List String)) :
    Except String (List String × Nat) × Bool :=
  let files := list_files_in_folder contents
  if files.isEmpty then (Except.ok ([], 0), false)
  else
    match driveLoop download process files [] 0 with
    | Except.error e => (Except.error e, true)
    | Except.ok r => (Except.ok r, false)

/-- The `/ingest/google-drive/file` handler (`ingest_drive_file`): reject a mime
containing neither `'pdf'` nor `'document'` with an explicit 400 error (before the temp
directory is created); then create the temp directory and download — `download_file` is
**outside** the inner `try`, so its failure propagates with the temp directory still in
place; a processing failure is caught, the temp directory removed, and the error
re-raised; on success the temp directory is removed and the response returned. -/
def ingest_drive_file (meta : DriveFile) (download : String → Except String Unit)
    (process : String → Except String (List String)) :
    Except String (List String × Nat) × Bool :=
  if !(allowedMime meta.mimeType) then
    (Except.error ("Unsupported file type: " ++ meta.mimeType ++
      ". Only PDFs and Documents are supported."), false)
  else
    match download meta.id with
    | Except.error e => (Except.error e, true)
    | Except.ok _ =>
      match process (gdocName meta) with
      | Except.error e => (Except.error e, false)
      | Except.ok ids => (Except.ok (ids, 1), false)

/-! ## Auxiliary definitions used only in statements -/

/-- The spec's count for the rate limiter, following its words: `role=user` messages of
the session with timestamp **within `[now - windowHours, now]`** (two-sided window, for
comparison with `check_rate_limit`, whose Mongo query has no upper bound). -/
def specUserCountInWindow (chats : List Msg) (session_id : String)
    (window_hours now : Int) : Nat :=
  (chats.filter (fun m => m.session_id == session_id && m.role == "user" &&
    decide (now - window_hours * 3600 ≤ m.timestamp) && decide (m.timestamp ≤ now))).length

/-- The ids a successful processing of a Drive file contributes (empty on failure). -/
def prIds (process : String → Except String (List String)) (f : DriveFile) :
    List String :=
  match process (gdocName f) with
  | Except.ok ids => ids
  | Except.error _ => []

/-- A Drive file that the per-file loop counts as processed: its mime passes the
substring check and its processing succeeded. -/
def processedOk (process : String → Except String (List String)) (f : DriveFile) :
    Bool :=
  allowedMime f.mimeType && (process (gdocName f)).isOk

/-- Placeholder chunk used as the default of `List.getD` in statements. -/
def dummyDoc : Doc :=
  { page_content := "", metadata := ⟨none, none, none, none, none⟩ }

/-- The chunks of a list whose (defaulted) source key is `s` — the group sharing one
entry of `source_counters`. -/
def bySource (s : String) (l : List Doc) : List Doc :=
  l.filter (fun c => srcOf c.metadata == s)

/-- Two chunks with identical text but different `source`/`page` metadata. -/
def wA : Doc :=
  { page_content := "same text", metadata := ⟨some "a.txt", some 1, none, none, none⟩ }

def wB : Doc :=
  { page_content := "same text", metadata := ⟨some "b/other.pdf", some 7, none, none, none⟩ }

/-- A stored user message of session `"s1"` inside the rate-limit window (timestamps in
seconds; `now = 360000` in the scenario below). -/
def c1Msg : Msg :=
  { session_id := "s1", role := "user", content := "hello", timestamp := 359900 }

/-- 25 user messages already recorded for session `"s1"` within the last hour. -/
def c1Chats : List Msg := List.replicate 25 c1Msg

/-! # Theorems -/

/-- RFC 1321 test vector: the empty string. -/
theorem md5hex_empty : md5hex "" = "d41d8cd98f00b204e9800998ecf8427e" := by decide

/-- RFC 1321 test vector: `"abc"`. -/
theorem md5hex_abc : md5hex "abc" = "900150983cd24fb0d6963f7d28e17f72" := by decide

/-- Deleting session `s` commutes with filtering for a different session `t`. -/
theorem clear_history_filter (chats : List Msg) (s t : String) (h : t ≠ s) :
    (clear_history chats s).filter (fun m => m.session_id == t)
      = chats.filter (fun m => m.session_id == t) := by
  unfold clear_history
  rw [List.filter_filter]
  refine List.filter_congr ?_
  intro m _
  by_cases hm : m.session_id = t
  · simp [hm, h]
  · simp [hm]

/-- C10: for distinct sessions `s ≠ t`, `clear_history s` leaves session `t`'s stored
messages unchanged — `get_history t` returns the same sequence before and after. -/
theorem clear_history_frame (chats : List Msg) (s t : String) (lim : Nat) (h : t ≠ s) :
    get_history (clear_history chats s) t lim = get_history chats t lim := by
  unfold get_history
  rw [clear_history_filter chats s t h]

/-- Witness for `clear_history_frame` at a concrete two-session store. -/
theorem clear_history_frame_witness :
    get_history (clear_history
      [{ session_id := "a", role := "user", content := "x", timestamp := 1 },
       { session_id := "b", role := "user", content := "y", timestamp := 2 }] "a") "b" 50
      = get_history
      [{ session_id := "a", role := "user", content := "x", timestamp := 1 },
       { session_id := "b", role := "user", content := "y", timestamp := 2 }] "b" 50 :=
  clear_history_frame _ "a" "b" 50 (by decide)

/-- C4: on stores whose timestamps do not lie in the future (every stored timestamp is
at most `now`, as `save_message` stamps them), `check_rate_limit` returns `true` exactly
when the number of `role="user"` messages of the session with timestamp within
`[now - windowHours, now]` is strictly less than `limit`; the count is a pure read of the
stored history.  (The Mongo query itself has only the `$gte` lower bound; the hypothesis
makes the missing upper bound vacuous.)  The defaults `limit=25`, `window_hours=1` are
applied at the call site in `queryEndpoint`. -/
theorem check_rate_limit_window (chats : List Msg) (sid : String) (limit w now : Int)
    (h : ∀ m ∈ chats, m.timestamp ≤ now) :
    (check_rate_limit chats sid limit w now = true ↔
      (specUserCountInWindow chats sid w now : Int) < limit) := by
  have hfil : chats.filter (fun m => m.session_id == sid && m.role == "user" &&
        decide (now - w * 3600 ≤ m.timestamp))
      = chats.filter (fun m => m.session_id == sid && m.role == "user" &&
        decide (now - w * 3600 ≤ m.timestamp) && decide (m.timestamp ≤ now)) := by
    refine List.filter_congr ?_
    intro m hm
    simp [h m hm]
  simp only [check_rate_limit, specUserCountInWindow, hfil, decide_eq_true_eq]

/-- Witness for `check_rate_limit_window`: one user message 100 seconds old. -/
theorem check_rate_limit_window_witness :
    check_rate_limit [{ session_id := "s", role := "user", content := "q", timestamp := 100 }]
        "s" 25 1 200 = true ↔
      ((specUserCountInWindow
        [{ session_id := "s", role := "user", content := "q", timestamp := 100 }]
        "s" 1 200 : Int) < 25) :=
  check_rate_limit_window _ "s" 25 1 200 (by decide)

/-- C1 (bug evaluation): with 25 user messages already recorded for `"s1"` within the
last hour, the 26th question takes the rate-limited branch: the user's message is still
recorded and the retrieval/generation path is never invoked, but the value handed back to
FastAPI is the **un-awaited coroutine** of
`save_message(session_id, "assistant", <redirection text>)` — not a response whose answer
is the fixed redirection message (and the redirection turn is never persisted either,
since the coroutine never runs). -/
theorem query_rate_limited_returns_coroutine :
    queryEndpoint c1Chats 360000 "s1" "q26" false
        (fun q => "generated:" ++ q) (fun q => ("generated:" ++ q, []))
      = { chats := c1Chats ++
            [{ session_id := "s1", role := "user", content := "q26", timestamp := 360000 }],
          ret := QueryReturn.unawaitedCoroutine "s1" "assistant" redirectMessage,
          ragInvoked := false } := by
  set_option maxRecDepth 10000 in decide

/-- C8 (counterexample): `chunk_overlap = chunk_size = 200` violates the claimed
precondition `overlap < maxSize`, yet construction succeeds — no error is raised. -/
theorem documentProcessorInit_overlap_eq_size_ok :
    (200 : Int) ≥ 200 ∧
      documentProcessorInit 200 200
        = Except.ok { chunk_size := 200, chunk_overlap := 200 } := by
  exact ⟨le_refl 200, rfl⟩

/-- C8 (amended): the boundary actually enforced (by the langchain splitter constructor
that `DocumentProcessor.__init__` invokes) is `overlap ≤ maxSize`: construction fails
with a `ValueError` (the spec's ConfigurationError) exactly when `overlap > maxSize`, and
succeeds — storing the two sizes — whenever `overlap ≤ maxSize`, including
`overlap = maxSize`. -/
theorem documentProcessorInit_boundary (size overlap : Int) :
    (size < overlap → (documentProcessorInit size overlap).isOk = false) ∧
    (overlap ≤ size →
      documentProcessorInit size overlap
        = Except.ok { chunk_size := size, chunk_overlap := overlap }) := by
  constructor
  · intro h
    simp [documentProcessorInit, h, Except.isOk, Except.toBool]
  · intro h
    simp [documentProcessorInit, not_lt.mpr h]

/-- Witness for `documentProcessorInit_boundary` at `(1000, 1200)` and `(1000, 200)`. -/
theorem documentProcessorInit_boundary_witness :
    (documentProcessorInit 1000 1200).isOk = false ∧
      documentProcessorInit 1000 200
        = Except.ok { chunk_size := 1000, chunk_overlap := 200 } :=
  ⟨(documentProcessorInit_boundary 1000 1200).1 (by decide),
   (documentProcessorInit_boundary 1000 200).2 (by decide)⟩

/-- When every download succeeds, the per-file loop of `ingest_drive` never aborts: it
returns the accumulated ids of exactly the files whose processing succeeded, and counts
them. -/
theorem driveLoop_all_ok (download : String → Except String Unit)
    (process : String → Except String (List String))
    (hdl : ∀ i, download i = Except.ok ()) (files : List DriveFile) :
    ∀ (acc : List String) (cnt : Nat),
      driveLoop download process files acc cnt
        = Except.ok
            (acc ++ (((files.filter (processedOk process)).map (prIds process)).flatten),
             cnt + (files.filter (processedOk process)).length) := by
  induction files with
  | nil => intro acc cnt; simp [driveLoop]
  | cons f rest ih =>
    intro acc cnt
    cases ha : allowedMime f.mimeType with
    | false =>
      have hok : processedOk process f = false := by simp [processedOk, ha]
      simp [driveLoop, ha, ih, hok]
    | true =>
      cases hpr : process (gdocName f) with
      | error e =>
        have hok : processedOk process f = false := by
          simp [processedOk, ha, hpr, Except.isOk, Except.toBool]
        simp [driveLoop, ha, hdl f.id, hpr, ih, hok]
      | ok ids =>
        have hok : processedOk process f = true := by
          simp [processedOk, ha, hpr, Except.isOk, Except.toBool]
        have hids : prIds process f = ids := by simp [prIds, hpr]
        simp [driveLoop, ha, hdl f.id, hpr, ih, hok, hids]
        omega

/-- Every file the Drive folder query returns has a mime passing the loop's substring
check. -/
theorem listed_allowedMime (contents : List DriveFile) :
    ∀ f ∈ list_files_in_folder contents, allowedMime f.mimeType = true := by
  intro f hf
  simp only [list_files_in_folder, List.mem_filter, Bool.and_eq_true, Bool.or_eq_true,
    beq_iff_eq, Bool.not_eq_true'] at hf
  rcases hf.2.1 with h | h <;> rw [h] <;> decide

/-- C5 (counterexample): a Drive folder holding one PDF whose download raises — the
handler propagates the error and returns with the temp directory still in place (the
`shutil.rmtree` after the loop is never reached), contradicting "removed on every exit
path". -/
theorem drive_download_failure_leaks_tempdir :
    ingest_drive
      [{ id := "fileA", name := "a.pdf", mimeType := "application/pdf", trashed := false }]
      (fun _ => Except.error "network down") (fun _ => Except.ok ["x"])
      = (Except.error "network down", true) := by rfl

/-- C5 (amended): the temp directory is removed on success, and — for single-file
ingestion — also when processing fails; but a failure raised **while downloading** leaves
it in place.  Precisely: for folder ingestion the temp directory survives exactly when
the handler returns an error (the only error escaping the loop being a download
failure), and for single-file ingestion exactly when the mime check passed and the
download failed. -/
theorem tempdir_cleanup_characterization (contents : List DriveFile) (meta : DriveFile)
    (download : String → Except String Unit)
    (process : String → Except String (List String)) :
    (ingest_drive contents download process).2
        = !(ingest_drive contents download process).1.isOk ∧
    (ingest_drive_file meta download process).2
        = (allowedMime meta.mimeType && !(download meta.id).isOk) := by
  constructor
  · cases he : (list_files_in_folder contents).isEmpty with
    | true => simp [ingest_drive, he, Except.isOk, Except.toBool]
    | false =>
      cases hdl : driveLoop download process (list_files_in_folder contents) [] 0 with
      | error e => simp [ingest_drive, he, hdl, Except.isOk, Except.toBool]
      | ok r => simp [ingest_drive, he, hdl, Except.isOk, Except.toBool]
  · cases ha : allowedMime meta.mimeType with
    | false => simp [ingest_drive_file, ha]
    | true =>
      cases hdl : download meta.id with
      | error e => simp [ingest_drive_file, ha, hdl, Except.isOk, Except.toBool]
      | ok u =>
        cases hpr : process (gdocName meta) with
        | error e => simp [ingest_drive_file, ha, hdl, hpr, Except.isOk, Except.toBool]
        | ok ids => simp [ingest_drive_file, ha, hdl, hpr, Except.isOk, Except.toBool]

/-- C6 (counterexample): a Drive folder containing one Word file
(`application/vnd.openxmlformats-officedocument.wordprocessingml.document`, a generic
`*/document` Word type, not trashed), with download and processing functioning — the
folder query lists only `application/pdf` and Google-Docs mimes, so the Word file is
never downloaded or processed (`processed_count = 0`), although its mime would pass the
loop's own check. -/
theorem drive_folder_skips_word_files :
    ingest_drive
      [{ id := "w", name := "w.docx",
         mimeType := "application/vnd.openxmlformats-officedocument.wordprocessingml.document",
         trashed := false }]
      (fun _ => Except.ok ()) (fun _ => Except.ok ["cw"])
      = (Except.ok ([], 0), false) ∧
    allowedMime
      "application/vnd.openxmlformats-officedocument.wordprocessingml.document" = true := by
  constructor
  · rfl
  · decide

/-- C6 (amended): during folder ingestion exactly the files the Drive query lists —
non-trashed files of mime exactly `application/pdf` or
`application/vnd.google-apps.document` — are processed (all of them, when downloads and
processing succeed); Word files are silently skipped along with everything else.  For
single-file ingestion the gate is the substring check `'pdf' in mime or 'document' in
mime`: a mime failing it is rejected with the explicit 400 error before any download,
and a mime passing it is ingested. -/
theorem drive_mime_filter (contents : List DriveFile) (meta : DriveFile)
    (download : String → Except String Unit)
    (process : String → Except String (List String))
    (hdl : ∀ i, download i = Except.ok ()) (hpr : ∀ p, (process p).isOk = true) :
    (ingest_drive contents download process).1
        = Except.ok
            ((((list_files_in_folder contents).map (prIds process)).flatten),
             (list_files_in_folder contents).length) ∧
    (allowedMime meta.mimeType = false →
      ingest_drive_file meta download process
        = (Except.error ("Unsupported file type: " ++ meta.mimeType ++
            ". Only PDFs and Documents are supported."), false)) ∧
    (allowedMime meta.mimeType = true →
      ∃ ids, ingest_drive_file meta download process = (Except.ok (ids, 1), false)) := by
  have hfil : (list_files_in_folder contents).filter (processedOk process)
      = list_files_in_folder contents := by
    refine List.filter_eq_self.mpr ?_
    intro f hf
    simp [processedOk, listed_allowedMime contents f hf, hpr (gdocName f)]
  refine ⟨?_, ?_, ?_⟩
  · cases he : (list_files_in_folder contents).isEmpty with
    | true =>
      have : list_files_in_folder contents = [] := List.isEmpty_iff.mp he
      simp [ingest_drive, he, this]
    | false =>
      simp [ingest_drive, he, driveLoop_all_ok download process hdl, hfil]
  · intro ha
    simp [ingest_drive_file, ha]
  · intro ha
    cases hp : process (gdocName meta) with
    | error e => exact absurd (hpr (gdocName meta)) (by simp [hp, Except.isOk, Except.toBool])
    | ok ids =>
      exact ⟨ids, by simp [ingest_drive_file, ha, hdl meta.id, hp]⟩

/-- Witness for `drive_mime_filter`: a folder containing one PDF; a spreadsheet mime for
the single-file endpoint's rejection and a PDF mime for its acceptance. -/
theorem drive_mime_filter_witness :
    ((ingest_drive
        [{ id := "p", name := "p.pdf", mimeType := "application/pdf", trashed := false }]
        (fun _ => Except.ok ()) (fun _ => Except.ok ["idA"])).1
      = Except.ok
          ((((list_files_in_folder
              [{ id := "p", name := "p.pdf", mimeType := "application/pdf", trashed := false }]).map
                (prIds (fun _ => Except.ok ["idA"]))).flatten),
           (list_files_in_folder
              [{ id := "p", name := "p.pdf", mimeType := "application/pdf", trashed := false }]).length) ∧
    (allowedMime "application/vnd.google-apps.spreadsheet" = false →
      ingest_drive_file
          { id := "s", name := "s", mimeType := "application/vnd.google-apps.spreadsheet",
            trashed := false }
          (fun _ => Except.ok ()) (fun _ => Except.ok ["idA"])
        = (Except.error ("Unsupported file type: " ++ "application/vnd.google-apps.spreadsheet" ++
            ". Only PDFs and Documents are supported."), false)) ∧
    (allowedMime "application/vnd.google-apps.spreadsheet" = true →
      ∃ ids, ingest_drive_file
          { id := "s", name := "s", mimeType := "application/vnd.google-apps.spreadsheet",
            trashed := false }
          (fun _ => Except.ok ()) (fun _ => Except.ok ["idA"])
        = (Except.ok (ids, 1), false))) :=
  drive_mime_filter
    [{ id := "p", name := "p.pdf", mimeType := "application/pdf", trashed := false }]
    { id := "s", name := "s", mimeType := "application/vnd.google-apps.spreadsheet",
      trashed := false }
    (fun _ => Except.ok ()) (fun _ => Except.ok ["idA"]) (fun _ => rfl) (fun _ => rfl)

/-- C7 (counterexample): a Drive folder with two healthy PDFs where the first file's
download raises — the whole batch aborts with the error: the second file is never
processed and no partial-success count is reported. -/
theorem drive_batch_aborts_on_download_failure :
    ingest_drive
      [{ id := "a", name := "a.pdf", mimeType := "application/pdf", trashed := false },
       { id := "b", name := "b.pdf", mimeType := "application/pdf", trashed := false }]
      (fun i => if i == "a" then Except.error "download failed" else Except.ok ())
      (fun _ => Except.ok ["c1"])
      = (Except.error "download failed", true) := by rfl

/-- C7 (amended): per-file **processing** failures during folder ingestion are caught
and skipped and the batch reports partial success with the count of processed files
(provided every download succeeds — a download failure aborts the batch, see the
counterexample); and in directory ingestion a failing file-type group is caught and
skipped, every successful group's documents still appearing in the result. -/
theorem batch_partial_success (contents : List DriveFile)
    (download : String → Except String Unit)
    (process : String → Except String (List String))
    (lg : String → Except String (List Doc)) (ext : String) (ds : List Doc)
    (hdl : ∀ i, download i = Except.ok ())
    (hext : ext ∈ LOADER_EXTS) (hds : lg ext = Except.ok ds) :
    (ingest_drive contents download process).1
        = Except.ok
            (((((list_files_in_folder contents).filter (processedOk process)).map
                (prIds process)).flatten),
             (((list_files_in_folder contents).filter (processedOk process)).length)) ∧
    ∃ pre post, load_directory lg = pre ++ ds ++ post := by
  constructor
  · cases he : (list_files_in_folder contents).isEmpty with
    | true =>
      have : list_files_in_folder contents = [] := List.isEmpty_iff.mp he
      simp [ingest_drive, he, this]
    | false =>
      simp [ingest_drive, he, driveLoop_all_ok download process hdl]
  · have h : ∀ (l : List String) (ext1 : String) (ds1 : List Doc), ext1 ∈ l →
        lg ext1 = Except.ok ds1 →
        ∃ pre post,
          (l.map (fun e =>
            match lg e with
            | Except.ok xs => xs
            | Except.error _ => [])).flatten = pre ++ ds1 ++ post := by
      intro l
      induction l with
      | nil => intro ext1 ds1 hm; exact absurd hm (List.not_mem_nil ext1)
      | cons e rest ih =>
        intro ext1 ds1 hmem hds1
        rcases List.mem_cons.mp hmem with he | he
        · subst he
          exact ⟨[], (rest.map (fun e =>
              match lg e with
              | Except.ok xs => xs
              | Except.error _ => [])).flatten, by simp [hds1]⟩
        · rcases ih ext1 ds1 he hds1 with ⟨pre, post, hpp⟩
          refine ⟨(match lg e with
              | Except.ok xs => xs
              | Except.error _ => []) ++ pre, post, ?_⟩
          simp [hpp, List.append_assoc]
    exact h LOADER_EXTS ext ds hext hds

/-- Witness for `batch_partial_success`: one PDF whose processing fails (caught and
counted as zero), and a directory load where only the `.txt` group succeeds. -/
theorem batch_partial_success_witness :
    ((ingest_drive
        [{ id := "p", name := "p.pdf", mimeType := "application/pdf", trashed := false }]
        (fun _ => Except.ok ()) (fun _ => Except.error "bad pdf")).1
      = Except.ok
          (((((list_files_in_folder
                [{ id := "p", name := "p.pdf", mimeType := "application/pdf", trashed := false }]).filter
                  (processedOk (fun _ => Except.error "bad pdf"))).map
                (prIds (fun _ => Except.error "bad pdf"))).flatten),
           ((((list_files_in_folder
                [{ id := "p", name := "p.pdf", mimeType := "application/pdf", trashed := false }]).filter
                  (processedOk (fun _ => Except.error "bad pdf"))).length))) ∧
    ∃ pre post,
      load_directory
          (fun e => if e == ".txt" then Except.ok [dummyDoc] else Except.error "loader crashed")
        = pre ++ [dummyDoc] ++ post) :=
  batch_partial_success _ _ _
    (fun e => if e == ".txt" then Except.ok [dummyDoc] else Except.error "loader crashed")
    ".txt" [dummyDoc] (fun _ => rfl) (by decide) (by rfl)

@[simp]
theorem srcOf_stamp (c : Doc) (n : Nat) : srcOf (stampChunk c n).metadata = srcOf c.metadata := rfl

@[simp]
theorem pageOf_stamp (c : Doc) (n : Nat) : pageOf (stampChunk c n).metadata = pageOf c.metadata := rfl

@[simp]
theorem id_stamp (c : Doc) (n : Nat) :
    (stampChunk c n).metadata.id = some (mkChunkId (srcOf c.metadata) (pageOf c.metadata) n) := rfl

@[simp]
theorem hash_stamp (c : Doc) (n : Nat) :
    (stampChunk c n).metadata.hash = some (md5hex c.page_content) := rfl

@[simp]
theorem content_stamp (c : Doc) (n : Nat) : (stampChunk c n).page_content = c.page_content := rfl

theorem bySource_cons (s : String) (c : Doc) (l : List Doc) :
    bySource s (c :: l)
      = if srcOf c.metadata == s then c :: bySource s l else bySource s l := by
  simp [bySource, List.filter_cons]

/-- Within one `assignChunks` pass, the `i`-th chunk carrying source key `s` gets the id
`"{basename(s)}:{page}:{ctrs s + i + 1}"` — counters pick up from the threaded map. -/
theorem assignChunks_seq (s : String) :
    ∀ (cs : List Doc) (ctrs : String → Nat) (i : Nat),
      i < (bySource s (assignChunks ctrs cs)).length →
      ((bySource s (assignChunks ctrs cs)).getD i dummyDoc).metadata.id
        = some (mkChunkId s
            (pageOf (((bySource s (assignChunks ctrs cs)).getD i dummyDoc).metadata))
            (ctrs s + i + 1)) := by
  intro cs
  induction cs with
  | nil => intro ctrs i h; simp [assignChunks, bySource] at h
  | cons c rest ih =>
    intro ctrs i h
    have hcons : assignChunks ctrs (c :: rest)
        = stampChunk c (ctrs (srcOf c.metadata) + 1)
          :: assignChunks (fun k => if k = srcOf c.metadata
              then ctrs (srcOf c.metadata) + 1 else ctrs k) rest := rfl
    by_cases hs : srcOf c.metadata = s
    · have hkeep : bySource s (assignChunks ctrs (c :: rest))
          = stampChunk c (ctrs (srcOf c.metadata) + 1)
            :: bySource s (assignChunks (fun k => if k = srcOf c.metadata
                then ctrs (srcOf c.metadata) + 1 else ctrs k) rest) := by
        rw [hcons, bySource_cons]
        simp [hs]
      rw [hkeep] at h ⊢
      cases i with
      | zero =>
        simp [hs]
      | succ j =>
        have h' : j < (bySource s (assignChunks (fun k => if k = srcOf c.metadata
            then ctrs (srcOf c.metadata) + 1 else ctrs k) rest)).length := by
          simpa using h
        have hrec := ih (fun k => if k = srcOf c.metadata
            then ctrs (srcOf c.metadata) + 1 else ctrs k) j h'
        have hctr : (fun k => if k = srcOf c.metadata
            then ctrs (srcOf c.metadata) + 1 else ctrs k) s = ctrs s + 1 := by
          simp [hs]
        rw [hctr] at hrec
        have harith : ctrs s + 1 + j + 1 = ctrs s + (j + 1) + 1 := by omega
        rw [harith] at hrec
        simpa using hrec
    · have hdrop : bySource s (assignChunks ctrs (c :: rest))
          = bySource s (assignChunks (fun k => if k = srcOf c.metadata
              then ctrs (srcOf c.metadata) + 1 else ctrs k) rest) := by
        rw [hcons, bySource_cons]
        simp [hs]
      rw [hdrop] at h ⊢
      have hrec := ih (fun k => if k = srcOf c.metadata
          then ctrs (srcOf c.metadata) + 1 else ctrs k) i h
      have hctr : (fun k => if k = srcOf c.metadata
          then ctrs (srcOf c.metadata) + 1 else ctrs k) s = ctrs s := by
        have hne : ¬(s = srcOf c.metadata) := fun hq => hs hq.symm
        simp [hne]
      rw [hctr] at hrec
      exact hrec

/-- Every chunk emitted by the metadata loop carries `hash = md5(its own text)`. -/
theorem assignChunks_hash :
    ∀ (cs : List Doc) (ctrs : String → Nat) (c : Doc),
      c ∈ assignChunks ctrs cs → c.metadata.hash = some (md5hex c.page_content) := by
  intro cs
  induction cs with
  | nil => intro ctrs c h; simp [assignChunks] at h
  | cons c0 rest ih =>
    intro ctrs c h
    have hcons : assignChunks ctrs (c0 :: rest)
        = stampChunk c0 (ctrs (srcOf c0.metadata) + 1)
          :: assignChunks (fun k => if k = srcOf c0.metadata
              then ctrs (srcOf c0.metadata) + 1 else ctrs k) rest := rfl
    rw [hcons] at h
    rcases List.mem_cons.mp h with hc | hc
    · subst hc; rfl
    · exact ih _ c hc

/-- The metadata loop assigns position `i` an id built from the `i`-th input chunk's own
(defaulted) source and page, for some sequence number. -/
theorem assignChunks_getD_id :
    ∀ (cs : List Doc) (ctrs : String → Nat) (i : Nat), i < cs.length →
      ∃ n, ((assignChunks ctrs cs).getD i dummyDoc).metadata.id
        = some (mkChunkId (srcOf (cs.getD i dummyDoc).metadata)
            (pageOf (cs.getD i dummyDoc).metadata) n) := by
  intro cs
  induction cs with
  | nil => intro ctrs i h; simp at h
  | cons c rest ih =>
    intro ctrs i h
    cases i with
    | zero => exact ⟨ctrs (srcOf c.metadata) + 1, rfl⟩
    | succ j =>
      have hcons : assignChunks ctrs (c :: rest)
          = stampChunk c (ctrs (srcOf c.metadata) + 1)
            :: assignChunks (fun k => if k = srcOf c.metadata
                then ctrs (srcOf c.metadata) + 1 else ctrs k) rest := rfl
      rw [hcons]
      have h' : j < rest.length := by simpa using h
      simpa using ih _ j h'

/-- C2: within one ingestion call, the chunks carrying source key `s` receive ids
`"{basename(s)}:{page}:{sequence}"` whose sequence numbers are exactly `1, 2, 3, …` in
emission order — strictly increasing from 1 with no gaps or repeats.  The counter map is
the `fun _ => 0` baked into `split_documents` (Python's fresh `source_counters = {}`), so
every invocation starts every source at zero; nothing is carried across calls. -/
theorem split_documents_sequence (splitter : List Doc → List Doc) (documents : List Doc)
    (s : String) (i : Nat)
    (h : i < (bySource s (split_documents splitter documents)).length) :
    ((bySource s (split_documents splitter documents)).getD i dummyDoc).metadata.id
      = some (mkChunkId s
          (pageOf (((bySource s (split_documents splitter documents)).getD i dummyDoc).metadata))
          (i + 1)) := by
  have hmain := assignChunks_seq s (splitter documents) (fun _ => 0) i h
  simpa [split_documents] using hmain

/-- Witness for `split_documents_sequence`: two chunks of the same source; the second
one's id carries sequence number 2. -/
theorem split_documents_sequence_witness :
    ((bySource "docs/a.txt" (split_documents id
        [{ page_content := "first chunk", metadata := ⟨some "docs/a.txt", some 0, none, none, none⟩ },
         { page_content := "second chunk", metadata := ⟨some "docs/a.txt", some 0, none, none, none⟩ }])).getD
        1 dummyDoc).metadata.id
      = some (mkChunkId "docs/a.txt"
          (pageOf (((bySource "docs/a.txt" (split_documents id
            [{ page_content := "first chunk", metadata := ⟨some "docs/a.txt", some 0, none, none, none⟩ },
             { page_content := "second chunk", metadata := ⟨some "docs/a.txt", some 0, none, none, none⟩ }])).getD
            1 dummyDoc).metadata))
          (1 + 1)) :=
  split_documents_sequence id
    [{ page_content := "first chunk", metadata := ⟨some "docs/a.txt", some 0, none, none, none⟩ },
     { page_content := "second chunk", metadata := ⟨some "docs/a.txt", some 0, none, none, none⟩ }]
    "docs/a.txt" 1 (by decide)

/-- C3: any two chunks produced by `split_documents` with identical text get equal
hashes, whatever their `source`/`page` metadata; the hash is `md5hex` of the chunk text
alone (a deterministic pure function of it). -/
theorem split_documents_hash_pure (splitter : List Doc → List Doc) (documents : List Doc)
    (c1 c2 : Doc)
    (h1 : c1 ∈ split_documents splitter documents)
    (h2 : c2 ∈ split_documents splitter documents)
    (htext : c1.page_content = c2.page_content) :
    c1.metadata.hash = some (md5hex c1.page_content) ∧
      c1.metadata.hash = c2.metadata.hash := by
  have e1 := assignChunks_hash (splitter documents) (fun _ => 0) c1 h1
  have e2 := assignChunks_hash (splitter documents) (fun _ => 0) c2 h2
  exact ⟨e1, by rw [e1, e2, htext]⟩

/-- Witness for `split_documents_hash_pure`: `wA` and `wB` share text but differ in
source and page. -/
theorem split_documents_hash_pure_witness :
    ((split_documents id [wA, wB]).getD 0 dummyDoc).metadata.hash
        = some (md5hex ((split_documents id [wA, wB]).getD 0 dummyDoc).page_content) ∧
      ((split_documents id [wA, wB]).getD 0 dummyDoc).metadata.hash
        = ((split_documents id [wA, wB]).getD 1 dummyDoc).metadata.hash :=
  split_documents_hash_pure id [wA, wB]
    ((split_documents id [wA, wB]).getD 0 dummyDoc)
    ((split_documents id [wA, wB]).getD 1 dummyDoc)
    (by decide) (by decide) (by decide)

/-- C9: a chunk whose metadata lacks `"source"` gets an id whose source label is the
literal `"unknown"`; a chunk whose metadata lacks `"page"` gets its page component from
`"page_number"` if present and `0` otherwise. -/
theorem split_documents_missing_keys (splitter : List Doc → List Doc)
    (documents : List Doc) (i : Nat) (h : i < (splitter documents).length) :
    (((splitter documents).getD i dummyDoc).metadata.source = none →
      ∃ n : Nat, ((split_documents splitter documents).getD i dummyDoc).metadata.id
        = some ("unknown" ++ ":"
            ++ toString (pageOf ((splitter documents).getD i dummyDoc).metadata)
            ++ ":" ++ toString n)) ∧
    (((splitter documents).getD i dummyDoc).metadata.page = none →
      ∃ n : Nat, ((split_documents splitter documents).getD i dummyDoc).metadata.id
        = some (os_basename (srcOf ((splitter documents).getD i dummyDoc).metadata) ++ ":"
            ++ toString (((splitter documents).getD i dummyDoc).metadata.page_number.getD 0)
            ++ ":" ++ toString n)) := by
  obtain ⟨n, hn⟩ := assignChunks_getD_id (splitter documents) (fun _ => 0) i h
  have hu : os_basename "unknown" = "unknown" := by decide
  constructor
  · intro hsrc
    have hsrc2 : srcOf ((splitter documents).getD i dummyDoc).metadata = "unknown" := by
      simp only [srcOf, hsrc, Option.getD_none]
    refine ⟨n, ?_⟩
    rw [split_documents, hn, hsrc2]
    simp only [mkChunkId, hu]
  · intro hpage
    have hpage2 : pageOf ((splitter documents).getD i dummyDoc).metadata
        = ((splitter documents).getD i dummyDoc).metadata.page_number.getD 0 := by
      simp only [pageOf, hpage, Option.getD_none]
    refine ⟨n, ?_⟩
    rw [split_documents, hn, hpage2]
    simp only [mkChunkId]

/-- Witness for `split_documents_missing_keys`: one chunk with neither `"source"` nor
`"page"`, but `"page_number" = 4`. -/
theorem split_documents_missing_keys_witness :
    (((id (α := List Doc)
        [{ page_content := "t", metadata := ⟨none, none, some 4, none, none⟩ }]).getD
          0 dummyDoc).metadata.source = none →
      ∃ n : Nat, ((split_documents id
          [{ page_content := "t", metadata := ⟨none, none, some 4, none, none⟩ }]).getD
            0 dummyDoc).metadata.id
        = some ("unknown" ++ ":"
            ++ toString (pageOf ((id (α := List Doc)
                [{ page_content := "t", metadata := ⟨none, none, some 4, none, none⟩ }]).getD
                  0 dummyDoc).metadata)
            ++ ":" ++ toString n)) ∧
    (((id (α := List Doc)
        [{ page_content := "t", metadata := ⟨none, none, some 4, none, none⟩ }]).getD
          0 dummyDoc).metadata.page = none →
      ∃ n : Nat, ((split_documents id
          [{ page_content := "t", metadata := ⟨none, none, some 4, none, none⟩ }]).getD
            0 dummyDoc).metadata.id
        = some (os_basename (srcOf ((id (α := List Doc)
                [{ page_content := "t", metadata := ⟨none, none, some 4, none, none⟩ }]).getD
                  0 dummyDoc).metadata) ++ ":"
            ++ toString (((id (α := List Doc)
                [{ page_content := "t", metadata := ⟨none, none, some 4, none, none⟩ }]).getD
                  0 dummyDoc).metadata.page_number.getD 0)
            ++ ":" ++ toString n)) :=
  split_documents_missing_keys id
    [{ page_content := "t", metadata := ⟨none, none, some 4, none, none⟩ }] 0 (by decide)

end KhuliKitab
